import Mathlib

/-!
# Startup report of monitoror (`cli/helper/printer.go`)

A shallow embedding of the startup-log printer: the data handed to the
template (`monitororInfo`, `monitorableInfo`), the helper methods the template
calls (`IsDisabled`, `StringifyEnabledVariants`, `DisabledMonitorableCount`,
`DocumentationVersion`, `DisplayedAddresses`), the collection loop of
`PrintMonitororStartupLog`, and the execution of `monitororTemplate`, written
as a writer that appends to an output buffer piece by piece.

Go strings are embedded as Lean `String`s, Go slices as `List`s, an `error`
as its message.
-/

namespace Monitoror

/-! ## Library functions used by the printer -/

namespace strings

/-- Go `strings.HasSuffix(s, suffix)`. -/
def HasSuffix (s suffix : String) : Bool :=
  suffix.data.isSuffixOf s.data

/-- The loop of Go `strings.Split` for a one-character separator: `cur` is
the piece being scanned, `acc` the pieces already cut. -/
def splitLoop (sep : Char) : List Char → List Char → List String → List String
  | [], cur, acc => acc ++ [String.mk cur]
  | c :: cs, cur, acc =>
    if c = sep then splitLoop sep cs [] (acc ++ [String.mk cur])
    else splitLoop sep cs (cur ++ [c]) acc

/-- Go `strings.Split(s, sep)` for a separator of one character. -/
def Split (s : String) (sep : Char) : List String :=
  splitLoop sep s.data [] []

/-- Go `strings.Join(elems, sep)`: the first element, then for every further
element the separator and the element. -/
def Join : List String → String → String
  | [], _ => ""
  | e :: es, sep => es.foldl (fun b s => b ++ sep ++ s) e

end strings

namespace strconv

/-- Digit `n` of `lowerhex = "0123456789abcdef"`. -/
def lowerhex (n : Nat) : Char :=
  "0123456789abcdef".data.getD (n % 16) '0'

/-- Go `strconv.IsPrint`: the Latin-1 fast path is decided here, the tables
for the runes above `0xFF` are the parameter `printTable`. -/
def IsPrint (printTable : Char → Bool) (r : Char) : Bool :=
  if r.toNat ≤ 0xFF then
    if 0x20 ≤ r.toNat ∧ r.toNat ≤ 0x7E then true
    else if 0xA1 ≤ r.toNat ∧ r.toNat ≤ 0xFF then r.toNat != 0xAD
    else false
  else printTable r

/-- Go `appendEscapedRune(buf, r, '"', false, false)`, the step of
`strconv.Quote` on one rune. -/
def appendEscapedRune (printTable : Char → Bool) (buf : String) (r : Char) : String :=
  if r = '"' ∨ r = '\\' then (buf.push '\\').push r
  else if IsPrint printTable r then buf.push r
  else if r = '\x07' then buf ++ "\\a"
  else if r = '\x08' then buf ++ "\\b"
  else if r = '\x0c' then buf ++ "\\f"
  else if r = '\n' then buf ++ "\\n"
  else if r = '\r' then buf ++ "\\r"
  else if r = '\t' then buf ++ "\\t"
  else if r = '\x0b' then buf ++ "\\v"
  else if r.toNat < 0x20 ∨ r.toNat = 0x7f then
    ((buf ++ "\\x").push (lowerhex (r.toNat / 16))).push (lowerhex r.toNat)
  else if r.toNat < 0x10000 then
    [12, 8, 4, 0].foldl (fun b s => b.push (lowerhex (r.toNat >>> s))) (buf ++ "\\u")
  else
    [28, 24, 20, 16, 12, 8, 4, 0].foldl (fun b s => b.push (lowerhex (r.toNat >>> s)))
      (buf ++ "\\U")

/-- Go `strconv.Quote(s)`, which is what the verb `%q` prints for a string. -/
def Quote (printTable : Char → Bool) (s : String) : String :=
  (s.data.foldl (appendEscapedRune printTable) "\"").push '"'

end strconv

/-! ## Data model -/

/-- Modelled from the spec: the constant `coreModels.DefaultVariant` of the
package `models`, the variant name reserved as the "default" sentinel. -/
def DefaultVariant : String := "default"

/-- The functions and values the printer takes from other packages: the
colour functions `pkg/templates` registers for the template, the tables of
`strconv.IsPrint`, and the result of `system.GetNetworkIP()`. -/
structure Deps where
  green : String → String
  yellow : String → String
  red : String → String
  blue : String → String
  grey : String → String
  inverseColor : String → String
  printTable : Char → Bool
  GetNetworkIP : String

/-- Element of `monitorableInfo.EnabledVariants`. -/
structure EnabledVariant where
  VariantName : String
deriving DecidableEq, Repr

/-- Element of `monitorableInfo.ErroredVariants`. -/
structure ErroredVariant where
  VariantName : String
  Errors : List String
deriving DecidableEq, Repr

/-- Go struct `monitorableInfo`. -/
structure monitorableInfo where
  MonitorableName : String
  EnabledVariants : List EnabledVariant
  ErroredVariants : List ErroredVariant
deriving DecidableEq, Repr

/-- Go struct `monitororInfo`. -/
structure monitororInfo where
  Version : String
  BuildTags : String
  LookupPort : Int
  LookupAddress : String
  DisableUI : Bool
  Monitorables : List monitorableInfo
deriving DecidableEq, Repr

/-- One entry of `VariantsMetadata` in the registry: the variant's name and
the two results of its validation. -/
structure VariantMetadata where
  VariantName : String
  Enabled : Bool
  Errors : List String
deriving DecidableEq, Repr

/-- One entry of `Registry.GetMonitorables()`: the display name of the
monitorable and the metadata of its variants. -/
structure MonitorableMetadata where
  DisplayName : String
  VariantsMetadata : List VariantMetadata
deriving DecidableEq, Repr

/-- The part of `cli.MonitororCli` the printer reads: the core configuration
and the registry; `Version` and `BuildTags` are the globals of `cli/version`. -/
structure MonitororCli where
  Version : String
  BuildTags : String
  DisableUI : Bool
  Port : Int
  Address : String
  Registry : List MonitorableMetadata
deriving DecidableEq, Repr

/-! ## Methods called by the template -/

/-- Go `(*monitorableInfo).IsDisabled`. -/
def monitorableInfo.IsDisabled (mi : monitorableInfo) : Bool :=
  mi.EnabledVariants.length == 0 && mi.ErroredVariants.length == 0

/-- The loop of `StringifyEnabledVariants` over the enabled variants: the
state is `(strDefault, variantsWithoutDefault)`. -/
def stringifyStep (st : String × List String) (v : EnabledVariant) : String × List String :=
  if v.VariantName = DefaultVariant then (v.VariantName ++ ", ", st.2)
  else (st.1, st.2 ++ [v.VariantName])

/-- Go `(*monitorableInfo).StringifyEnabledVariants`. -/
def monitorableInfo.StringifyEnabledVariants (mi : monitorableInfo) : String :=
  if mi.EnabledVariants.length = 1 ∧
      (mi.EnabledVariants.head?.map (·.VariantName)) = some DefaultVariant then
    if mi.ErroredVariants.length > 0 then "[default]" else ""
  else
    let st := mi.EnabledVariants.foldl stringifyStep ("", [])
    if st.2.length > 0 then
      "[" ++ st.1 ++ "variants: [" ++ strings.Join st.2 ", " ++ "]]"
    else ""

/-- Go `(*monitororInfo).DocumentationVersion`. -/
def monitororInfo.DocumentationVersion (mi : monitororInfo) : String :=
  if !strings.HasSuffix mi.Version "-dev" then ""
  else
    match strings.Split mi.Version '.' with
    | [s0, s1, _] => s0 ++ "." ++ s1 ++ "/"
    | _ => ""

/-- Go `(*monitororInfo).DisabledMonitorableCount`. -/
def monitororInfo.DisabledMonitorableCount (mi : monitororInfo) : Nat :=
  mi.Monitorables.foldl (fun n m => if m.IsDisabled then n + 1 else n) 0

/-- Go `(*monitororInfo).DisplayedAddresses`. -/
def monitororInfo.DisplayedAddresses (d : Deps) (mi : monitororInfo) : List String :=
  if mi.LookupAddress ≠ "" then [] ++ [mi.LookupAddress]
  else ([] ++ ["localhost"]) ++ [d.GetNetworkIP]

/-! ## Collection of the statuses from the registry -/

/-- Body of the inner loop of `PrintMonitororStartupLog` (`for _, v := range
mm.VariantsMetadata`): the two `append`s, each under its own `if`. -/
def collectVariant (m : monitorableInfo) (v : VariantMetadata) : monitorableInfo :=
  let m1 : monitorableInfo :=
    if v.Enabled then
      { m with EnabledVariants := m.EnabledVariants ++ [⟨v.VariantName⟩] }
    else m
  if v.Errors.length > 0 then
    { m1 with ErroredVariants := m1.ErroredVariants ++ [⟨v.VariantName, v.Errors⟩] }
  else m1

/-- Body of the outer loop of `PrintMonitororStartupLog`: the `monitorableInfo`
built for one registered monitorable. -/
def collectMonitorable (mm : MonitorableMetadata) : monitorableInfo :=
  mm.VariantsMetadata.foldl collectVariant
    { MonitorableName := mm.DisplayName, EnabledVariants := [], ErroredVariants := [] }

/-- The `monitororInfo` that `PrintMonitororStartupLog` hands to the template. -/
def collectInfo (c : MonitororCli) : monitororInfo :=
  c.Registry.foldl
    (fun info mm => { info with Monitorables := info.Monitorables ++ [collectMonitorable mm] })
    { Version := c.Version, BuildTags := c.BuildTags, DisableUI := c.DisableUI,
      LookupPort := c.Port, LookupAddress := c.Address, Monitorables := [] }

/-! ## Execution of `monitororTemplate`

Every function takes the output written so far and returns it extended, in
the order the template engine writes. Text next to a trim marker (`{{-` or
`-}}`) is written with its white space on that side removed. -/

/-- Template lines 15 to 34: banner, build-tag badge, version, project URL,
development-mode box, and the header of the list. -/
def execHeader (d : Deps) (w : String) (mi : monitororInfo) : String :=
  let w := w ++ "\n    __  ___            _ __\n   /  |/  /___  ____  (_) /_____  _________  _____\n  / /|_/ / __ \\/ __ \\/ / __/ __ \\/ ___/ __ \\/ ___/\n / /  / / /_/ / / / / / /_/ /_/ / /  / /_/ / / "
  let w := if mi.BuildTags ≠ "" then w ++ d.inverseColor (" " ++ mi.BuildTags ++ " ") else w
  let w := w ++ "\n/_/  /_/\\____/_/ /_/_/\\__/\\____/_/   \\____/_/  " ++ d.green mi.Version
  let w := w ++ "\n\n" ++ d.blue "https://monitoror.com" ++ "\n\n\n"
  let w :=
    if mi.DisableUI then
      w ++ "┌─ " ++ d.yellow "DEVELOPMENT MODE" ++ " ──────────────────────────────┐\n│ UI must be started via " ++ d.green "yarn serve" ++ " from ./ui     │\n│ For more details, check our development guide:  │\n│ " ++ d.blue "https://monitoror.com/guides/#development" ++ "       │\n└─────────────────────────────────────────────────┘\n\n\n"
    else w
  w ++ d.green "ENABLED MONITORABLES" ++ "\n"

/-- Template lines 52 to 54, `range .Errors`: one line per error. -/
def execErrors (w : String) (errors : List String) : String :=
  errors.foldl (fun w e => w ++ "\n      " ++ e) w

/-- Template lines 47 to 54, the body of `range .ErroredVariants`: the
header with `%s` for the default variant and `%q` for another one, then the
errors. -/
def execErroredVariant (d : Deps) (w : String) (ev : ErroredVariant) : String :=
  let w :=
    if ev.VariantName = DefaultVariant then
      w ++ "\n    " ++ d.red ("/!\\ Errored " ++ ev.VariantName ++ " configuration")
    else
      w ++ "\n    " ++
        d.red ("/!\\ Errored " ++ strconv.Quote d.printTable ev.VariantName ++
          " variant configuration")
  execErrors w ev.Errors

/-- Template lines 35 to 56, the body of `range .Monitorables`. -/
def execMonitorable (d : Deps) (w : String) (m : monitorableInfo) : String :=
  if !m.IsDisabled then
    let w :=
      if m.ErroredVariants.isEmpty then w ++ "\n  " ++ d.green "✓ "
      else if !m.EnabledVariants.isEmpty then w ++ "\n  " ++ d.yellow "! "
      else w ++ "\n  " ++ d.red "x "
    let w := w ++ m.MonitorableName ++ " " ++ d.grey m.StringifyEnabledVariants
    m.ErroredVariants.foldl (execErroredVariant d) w
  else w

/-- Template lines 35 to 56: `range .Monitorables`. -/
def execMonitorables (d : Deps) (w : String) (ms : List monitorableInfo) : String :=
  ms.foldl (execMonitorable d) w

/-- Template lines 56 to 63: the two line ends after the list and the
`if ne .DisabledMonitorableCount 0` block. -/
def execIgnored (d : Deps) (w : String) (mi : monitororInfo) : String :=
  let w := w ++ "\n\n"
  if mi.DisabledMonitorableCount ≠ 0 then
    w ++ d.yellow (toString mi.DisabledMonitorableCount ++ " more monitorables were ignored") ++
      "\nCheck the documentation to know how to enabled them:\n" ++
      d.blue ("https://monitoror.com/" ++ mi.DocumentationVersion ++ "documentation/") ++
      "\n\n"
  else w

/-- Template lines 63 to 68: the "running at" block, `range
.DisplayedAddresses`. -/
def execAddresses (d : Deps) (w : String) (mi : monitororInfo) : String :=
  let w := w ++ "\nMonitoror is running at:"
  let w := (mi.DisplayedAddresses d).foldl
    (fun w a => w ++ "\n  " ++ d.blue ("http://" ++ a ++ ":" ++ toString mi.LookupPort)) w
  w ++ "\n\n"

/-- The text `parsedTemplate.Execute` writes for `mi`. -/
def Execute (d : Deps) (mi : monitororInfo) : String :=
  execAddresses d (execIgnored d (execMonitorables d (execHeader d "" mi) mi.Monitorables) mi) mi

/-- Go `PrintMonitororStartupLog`: the text written to `monitororCli.Output`. -/
def PrintMonitororStartupLog (d : Deps) (c : MonitororCli) : String :=
  Execute d (collectInfo c)

/-! ## Vocabulary of the specification -/

namespace Spec

/-- Row "no enabled variants AND no errored variants" of the classification
table. -/
abbrev hidden (m : monitorableInfo) : Prop :=
  m.EnabledVariants.length = 0 ∧ m.ErroredVariants.length = 0

/-- Row "at least one enabled variant AND zero errored variants" of the
classification table. -/
abbrev ok (m : monitorableInfo) : Prop :=
  0 < m.EnabledVariants.length ∧ m.ErroredVariants.length = 0

/-- Row "at least one enabled variant AND at least one errored variant" of
the classification table. -/
abbrev warning (m : monitorableInfo) : Prop :=
  0 < m.EnabledVariants.length ∧ 0 < m.ErroredVariants.length

/-- Row "zero enabled variants AND at least one errored variant" of the
classification table. -/
abbrev failed (m : monitorableInfo) : Prop :=
  m.EnabledVariants.length = 0 ∧ 0 < m.ErroredVariants.length

end Spec

/-- Dependencies with the colours switched off (every colour function is the
identity), as in the tests of the printer. -/
def plainDeps : Deps :=
  ⟨id, id, id, id, id, id, fun _ => true, "10.0.0.1"⟩

/-! ## General lemmas on writers -/

theorem join_fold (l : List String) (acc : String) :
    l.foldl (fun r s => r ++ s) acc = acc ++ String.join l := by
  induction l generalizing acc with
  | nil => simp [String.join]
  | cons a l ih =>
    simp only [List.foldl_cons, String.join]
    rw [ih (acc ++ a), ih ("" ++ a), String.empty_append, String.append_assoc]

theorem join_cons (a : String) (l : List String) :
    String.join (a :: l) = a ++ String.join l := by
  simp only [String.join, List.foldl_cons]
  rw [join_fold, String.empty_append]
  rfl

theorem join_nil : String.join [] = "" := rfl

/-- A loop that appends one piece per element writes the concatenation of the
pieces, in the order of the list. -/
theorem foldl_write {α : Type} (g : α → String) (l : List α) (w : String) :
    l.foldl (fun w x => w ++ g x) w = w ++ String.join (l.map g) := by
  induction l generalizing w with
  | nil => simp [join_nil]
  | cons a l ih =>
    simp only [List.foldl_cons, List.map_cons]
    rw [ih, join_cons, String.append_assoc]

/-- The same for a loop body given as a writer that extends its buffer. -/
theorem foldl_writer {α : Type} (f : String → α → String)
    (hf : ∀ w x, f w x = w ++ f "" x) (l : List α) (w : String) :
    l.foldl f w = w ++ String.join (l.map (f "")) := by
  induction l generalizing w with
  | nil => simp [join_nil]
  | cons a l ih =>
    simp only [List.foldl_cons, List.map_cons]
    rw [ih, join_cons, hf w a, String.append_assoc]

theorem append_left_cancel_str {w a b : String} (h : w ++ a = w ++ b) : a = b := by
  have h1 := congrArg String.data h
  simp only [String.data_append] at h1
  exact String.ext (List.append_cancel_left h1)

theorem execErrors_eq (w : String) (errors : List String) :
    execErrors w errors = w ++ String.join (errors.map fun e => "\n      " ++ e) := by
  unfold execErrors
  have h := foldl_write (fun e => "\n      " ++ e) errors w
  simpa [String.append_assoc] using h

theorem execErroredVariant_writer (d : Deps) (w : String) (ev : ErroredVariant) :
    execErroredVariant d w ev = w ++ execErroredVariant d "" ev := by
  unfold execErroredVariant
  by_cases h : ev.VariantName = DefaultVariant
  · simp only [h, if_true]
    rw [execErrors_eq, execErrors_eq]
    simp [String.append_assoc]
  · simp only [h, if_false]
    rw [execErrors_eq, execErrors_eq]
    simp [String.append_assoc]

theorem isDisabled_iff (m : monitorableInfo) :
    m.IsDisabled = true ↔ m.EnabledVariants.length = 0 ∧ m.ErroredVariants.length = 0 := by
  simp [monitorableInfo.IsDisabled]

theorem execMonitorable_hidden (d : Deps) (w : String) (m : monitorableInfo)
    (h : m.IsDisabled = true) : execMonitorable d w m = w := by
  simp [execMonitorable, h]

theorem disabledCount_fold (ms : List monitorableInfo) (n : Nat) :
    ms.foldl (fun n m => if m.IsDisabled then n + 1 else n) n
      = n + (ms.filter (·.IsDisabled)).length := by
  induction ms generalizing n with
  | nil => simp
  | cons m ms ih =>
    simp only [List.foldl_cons, List.filter_cons]
    rw [ih]
    by_cases h : m.IsDisabled = true
    · simp [h]; omega
    · simp [h]

/-! ## Status glyph and hidden integrations -/

/-- C1: a block of the list starts with exactly one glyph, written before the
name: the green `✓ ` for a status with enabled and no errored variants, the
yellow `! ` for one with enabled and errored variants, the red `x ` for one
with errored variants only; the name, a blank and the grey summary follow,
then the lines of the errored variants. The four rows of the classification
table (hidden, ok, warning, failed) cover every status and exclude one
another. -/
theorem glyph_of_status (d : Deps) (w : String) (m : monitorableInfo) :
    (Spec.ok m → execMonitorable d w m =
        w ++ "\n  " ++ d.green "✓ " ++ m.MonitorableName ++ " " ++
          d.grey m.StringifyEnabledVariants) ∧
    (Spec.warning m → execMonitorable d w m =
        m.ErroredVariants.foldl (execErroredVariant d)
          (w ++ "\n  " ++ d.yellow "! " ++ m.MonitorableName ++ " " ++
            d.grey m.StringifyEnabledVariants)) ∧
    (Spec.failed m → execMonitorable d w m =
        m.ErroredVariants.foldl (execErroredVariant d)
          (w ++ "\n  " ++ d.red "x " ++ m.MonitorableName ++ " " ++
            d.grey m.StringifyEnabledVariants)) ∧
    (Spec.hidden m ↔ m.IsDisabled = true) ∧
    (Spec.hidden m ∨ Spec.ok m ∨ Spec.warning m ∨ Spec.failed m) ∧
    ¬ (Spec.hidden m ∧ Spec.ok m) ∧ ¬ (Spec.hidden m ∧ Spec.warning m) ∧
    ¬ (Spec.hidden m ∧ Spec.failed m) ∧ ¬ (Spec.ok m ∧ Spec.warning m) ∧
    ¬ (Spec.ok m ∧ Spec.failed m) ∧ ¬ (Spec.warning m ∧ Spec.failed m) := by
  obtain ⟨name, en, er⟩ := m
  refine ⟨?_, ?_, ?_, ?_, ?_, ?_, ?_, ?_, ?_, ?_, ?_⟩
  · rintro ⟨h1, h2⟩
    have her : er = [] := List.length_eq_zero.mp h2
    subst her
    cases en with
    | nil => simp at h1
    | cons a en => simp [execMonitorable, monitorableInfo.IsDisabled]
  · rintro ⟨h1, h2⟩
    cases en with
    | nil => simp at h1
    | cons a en =>
      cases er with
      | nil => simp at h2
      | cons b er => simp [execMonitorable, monitorableInfo.IsDisabled]
  · rintro ⟨h1, h2⟩
    have hen : en = [] := List.length_eq_zero.mp h1
    subst hen
    cases er with
    | nil => simp at h2
    | cons b er => simp [execMonitorable, monitorableInfo.IsDisabled]
  · exact (isDisabled_iff _).symm
  · simp only [Spec.hidden, Spec.ok, Spec.warning, Spec.failed]; omega
  all_goals (simp only [Spec.hidden, Spec.ok, Spec.warning, Spec.failed]; omega)

/-- Witness of C1: one status of each visible kind, with the colours off. -/
theorem glyph_of_status_witness :
    execMonitorable plainDeps "" ⟨"M", [⟨"default"⟩], []⟩ = "\n  ✓ M " ∧
    execMonitorable plainDeps "" ⟨"M", [⟨"default"⟩], [⟨"v", ["e"]⟩]⟩
      = "\n  ! M [default]\n    /!\\ Errored \"v\" variant configuration\n      e" ∧
    execMonitorable plainDeps "" ⟨"M", [], [⟨"default", ["e"]⟩]⟩
      = "\n  x M \n    /!\\ Errored default configuration\n      e" :=
  ⟨(glyph_of_status plainDeps "" ⟨"M", [⟨"default"⟩], []⟩).1 (by decide),
   (glyph_of_status plainDeps "" ⟨"M", [⟨"default"⟩], [⟨"v", ["e"]⟩]⟩).2.1 (by decide),
   (glyph_of_status plainDeps "" ⟨"M", [], [⟨"default", ["e"]⟩]⟩).2.2.1 (by decide)⟩

/-- C2: `IsDisabled` holds exactly for a status with no enabled and no
errored variant; such a status writes nothing, so the list is written as if
the hidden statuses were removed from it; and `DisabledMonitorableCount` is
the number of hidden statuses of the list. -/
theorem hidden_excluded_and_counted (d : Deps) (w : String) (mi : monitororInfo) :
    (∀ m : monitorableInfo,
      (m.IsDisabled = true ↔
        m.EnabledVariants.length = 0 ∧ m.ErroredVariants.length = 0) ∧
      (m.IsDisabled = true → ∀ w0, execMonitorable d w0 m = w0)) ∧
    execMonitorables d w mi.Monitorables
      = execMonitorables d w (mi.Monitorables.filter fun m => !m.IsDisabled) ∧
    mi.DisabledMonitorableCount = (mi.Monitorables.filter (·.IsDisabled)).length := by
  refine ⟨fun m => ⟨isDisabled_iff m, fun h w0 => execMonitorable_hidden d w0 m h⟩, ?_, ?_⟩
  · unfold execMonitorables
    generalize mi.Monitorables = ms
    induction ms generalizing w with
    | nil => rfl
    | cons m ms ih =>
      cases h : m.IsDisabled with
      | true =>
        simp only [List.foldl_cons, List.filter_cons, h, Bool.not_true]
        rw [execMonitorable_hidden d w m h]
        exact ih w
      | false =>
        simp only [List.filter_cons, h, Bool.not_false, if_true, List.foldl_cons]
        exact ih _
  · unfold monitororInfo.DisabledMonitorableCount
    rw [disabledCount_fold]
    simp

/-- Witness of C2: the fourth monitorable of the test is hidden and counted. -/
theorem hidden_excluded_and_counted_witness :
    execMonitorable plainDeps "w" ⟨"Monitorable 4", [], []⟩ = "w" :=
  ((hidden_excluded_and_counted plainDeps "" ⟨"1.0.0", "", 3000, "1.2.3.4", false, []⟩).1
    ⟨"Monitorable 4", [], []⟩).2 (by decide) "w"

/-! ## The variant summary -/

theorem Join_eq_intercalate (l : List String) (sep : String) :
    strings.Join l sep = String.intercalate sep l := by
  cases l with
  | nil => rfl
  | cons e es =>
    simp only [strings.Join, String.intercalate]
    induction es generalizing e with
    | nil => rfl
    | cons a es ih =>
      simp only [List.foldl_cons, String.intercalate.go]
      exact ih _

theorem default_comma : DefaultVariant ++ ", " = "default, " := by decide

/-- The loop over the enabled variants: `strDefault` is `"default, "` once a
default variant was met, `variantsWithoutDefault` collects the other names in
order. -/
theorem stringify_fold (vs : List EnabledVariant) (p : String) (l : List String) :
    vs.foldl stringifyStep (p, l) =
      (if (∃ v ∈ vs, v.VariantName = DefaultVariant) then "default, " else p,
       l ++ (vs.map (·.VariantName)).filter (· ≠ DefaultVariant)) := by
  induction vs generalizing p l with
  | nil => simp
  | cons v vs ih =>
    simp only [List.foldl_cons, stringifyStep]
    by_cases hv : v.VariantName = DefaultVariant
    · simp only [hv, if_true]
      rw [ih]
      by_cases hex : ∃ v ∈ vs, v.VariantName = DefaultVariant
      · simp [hex, hv]
      · have hex' : ∀ x ∈ vs, ¬ x.VariantName = DefaultVariant := by
          intro x hx hd
          exact hex ⟨x, hx, hd⟩
        simp [hex', hv, default_comma]
    · simp only [hv, if_false]
      rw [ih]
      simp [hv, List.filter_cons]

theorem mem_default_iff (vs : List EnabledVariant) :
    (⟨DefaultVariant⟩ : EnabledVariant) ∈ vs ↔ ∃ v ∈ vs, v.VariantName = DefaultVariant := by
  constructor
  · intro h
    exact ⟨_, h, rfl⟩
  · rintro ⟨⟨n⟩, hv, hn⟩
    simp only at hn
    subst hn
    exact hv

theorem others_eq_nil_iff (vs : List EnabledVariant) :
    (vs.map (·.VariantName)).filter (· ≠ DefaultVariant) = [] ↔
      ∀ v ∈ vs, v.VariantName = DefaultVariant := by
  simp [List.filter_eq_nil_iff]

theorem bracket_ne_empty (x : String) : "[" ++ x ≠ "" := by
  intro h
  have h1 := congrArg String.data h
  simp at h1

/-- The first test of `StringifyEnabledVariants` holds exactly for the list
`[default]`. -/
theorem sole_default_iff (vs : List EnabledVariant) :
    (vs.length = 1 ∧ (vs.head?.map (·.VariantName)) = some DefaultVariant) ↔
      vs = [⟨DefaultVariant⟩] := by
  constructor
  · rintro ⟨h1, h2⟩
    obtain ⟨a, rfl⟩ := List.length_eq_one.mp h1
    obtain ⟨n⟩ := a
    simp only [List.head?_cons, Option.map_some', Option.some.injEq] at h2
    subst h2
    rfl
  · rintro rfl
    exact ⟨rfl, rfl⟩

/-- The result of `StringifyEnabledVariants` outside its first branch. -/
theorem stringify_else (m : monitorableInfo) (h : m.EnabledVariants ≠ [⟨DefaultVariant⟩]) :
    m.StringifyEnabledVariants =
      if (m.EnabledVariants.map (·.VariantName)).filter (· ≠ DefaultVariant) = [] then ""
      else
        "[" ++ (if (⟨DefaultVariant⟩ : EnabledVariant) ∈ m.EnabledVariants then "default, "
            else "") ++ "variants: [" ++
          String.intercalate ", "
            ((m.EnabledVariants.map (·.VariantName)).filter (· ≠ DefaultVariant)) ++ "]]" := by
  unfold monitorableInfo.StringifyEnabledVariants
  rw [if_neg (fun hc => h ((sole_default_iff _).mp hc))]
  simp only [stringify_fold, List.nil_append, Join_eq_intercalate]
  by_cases ho : (m.EnabledVariants.map (·.VariantName)).filter (· ≠ DefaultVariant) = []
  · rw [if_pos ho, if_neg (by rw [ho]; simp)]
  · have hpos : 0 < ((m.EnabledVariants.map (·.VariantName)).filter
        (· ≠ DefaultVariant)).length := List.length_pos.mpr ho
    simp only [gt_iff_lt, hpos, if_true, ho, if_false]
    by_cases hd : (⟨DefaultVariant⟩ : EnabledVariant) ∈ m.EnabledVariants
    · rw [if_pos hd, if_pos ((mem_default_iff _).mp hd)]
    · rw [if_neg hd, if_neg (fun hc => hd ((mem_default_iff _).mpr hc))]

theorem nodup_all_eq {α : Type} (a : α) (l : List α) (hn : l.Nodup)
    (h : ∀ x ∈ l, x = a) (hne : l ≠ []) : l = [a] := by
  cases l with
  | nil => exact absurd rfl hne
  | cons x l =>
    have hx : x = a := h x (List.mem_cons_self _ _)
    subst hx
    cases l with
    | nil => rfl
    | cons y l =>
      have hy : y = x := h y (by simp)
      subst hy
      simp at hn

/-- C3: when at least one enabled variant is not the default one, the summary
is `[` then `default, ` if the default variant is enabled, then `variants: [`,
the other enabled names in their order joined by `, `, and `]]`; the errored
variants play no part. -/
theorem stringify_with_variants (m : monitorableInfo)
    (h : ∃ v ∈ m.EnabledVariants, v.VariantName ≠ DefaultVariant) :
    m.StringifyEnabledVariants =
      "[" ++ (if (⟨DefaultVariant⟩ : EnabledVariant) ∈ m.EnabledVariants then "default, "
          else "") ++ "variants: [" ++
        String.intercalate ", "
          ((m.EnabledVariants.map (·.VariantName)).filter (· ≠ DefaultVariant)) ++ "]]" := by
  obtain ⟨v, hv, hne⟩ := h
  have h1 : m.EnabledVariants ≠ [⟨DefaultVariant⟩] := by
    intro hc
    rw [hc] at hv
    simp only [List.mem_singleton] at hv
    exact hne (by rw [hv])
  have h2 : ¬ (m.EnabledVariants.map (·.VariantName)).filter (· ≠ DefaultVariant) = [] := by
    intro hc
    exact hne ((others_eq_nil_iff _).mp hc v hv)
  rw [stringify_else m h1, if_neg h2]

/-- Witness of C3: the first and the third monitorable of the test, and one
with an errored variant. -/
theorem stringify_with_variants_witness :
    (⟨"Monitorable 1", [⟨"default"⟩, ⟨"variant1"⟩, ⟨"variant2"⟩], []⟩ :
        monitorableInfo).StringifyEnabledVariants = "[default, variants: [variant1, variant2]]" ∧
    (⟨"Monitorable 3", [⟨"variant1"⟩], [⟨"default", ["error 1"]⟩]⟩ :
        monitorableInfo).StringifyEnabledVariants = "[variants: [variant1]]" :=
  ⟨stringify_with_variants ⟨"Monitorable 1", [⟨"default"⟩, ⟨"variant1"⟩, ⟨"variant2"⟩], []⟩
      ⟨⟨"variant1"⟩, by decide, by decide⟩,
   stringify_with_variants ⟨"Monitorable 3", [⟨"variant1"⟩], [⟨"default", ["error 1"]⟩]⟩
      ⟨⟨"variant1"⟩, by decide, by decide⟩⟩

/-- Without errored variants the summary is empty exactly when every enabled
variant is the default one. -/
theorem summary_empty_all_default (m : monitorableInfo)
    (h2 : m.ErroredVariants.length = 0) :
    m.StringifyEnabledVariants = "" ↔
      ∀ v ∈ m.EnabledVariants, v.VariantName = DefaultVariant := by
  by_cases hs : m.EnabledVariants = [⟨DefaultVariant⟩]
  · have he : m.StringifyEnabledVariants = "" := by
      unfold monitorableInfo.StringifyEnabledVariants
      rw [if_pos ((sole_default_iff _).mpr hs)]
      simp [h2]
    simp [he, hs]
  · rw [stringify_else m hs, ← others_eq_nil_iff]
    by_cases ho : (m.EnabledVariants.map (·.VariantName)).filter (· ≠ DefaultVariant) = []
    · rw [if_pos ho]
      exact ⟨fun _ => ho, fun _ => rfl⟩
    · rw [if_neg ho]
      constructor
      · intro hc
        simp only [String.append_assoc] at hc
        exact absurd hc (bracket_ne_empty _)
      · intro hc
        exact absurd hc ho

/-- A non-empty list of enabled variants with distinct names, all of them the
default name, is the list `[default]`. -/
theorem distinct_all_default (vs : List EnabledVariant)
    (hn : (vs.map (·.VariantName)).Nodup) (hne : vs ≠ [])
    (hall : ∀ v ∈ vs, v.VariantName = DefaultVariant) : vs = [⟨DefaultVariant⟩] := by
  refine nodup_all_eq _ _ (List.Nodup.of_map _ hn) ?_ hne
  rintro ⟨n⟩ hx
  have := hall _ hx
  simp only at this
  rw [this]

/-- The summary of a status whose enabled list is `[default]` and which has
an errored variant. -/
theorem summary_sole_default_errored (m : monitorableInfo)
    (hs : m.EnabledVariants = [⟨DefaultVariant⟩]) (he : 0 < m.ErroredVariants.length) :
    m.StringifyEnabledVariants = "[default]" := by
  unfold monitorableInfo.StringifyEnabledVariants
  rw [if_pos ((sole_default_iff _).mpr hs)]
  simp [he]

/-! ## Lines of the errored variants -/

theorem quote_fold_plain (t : Char → Bool) (cs : List Char) (buf : String)
    (h : ∀ c ∈ cs, c ≠ '"' ∧ c ≠ '\\' ∧ strconv.IsPrint t c = true) :
    cs.foldl (strconv.appendEscapedRune t) buf = buf ++ String.mk cs := by
  induction cs generalizing buf with
  | nil => exact (String.append_empty buf).symm
  | cons c cs ih =>
    obtain ⟨h1, h2, h3⟩ := h c (List.mem_cons_self _ _)
    have hstep : strconv.appendEscapedRune t buf c = buf.push c := by
      unfold strconv.appendEscapedRune
      rw [if_neg (by simp [h1, h2]), if_pos h3]
    rw [List.foldl_cons, hstep, ih _ (fun x hx => h x (List.mem_cons_of_mem _ hx))]
    apply String.ext
    simp [String.data_append, String.data_push]

/-- On a name made of printable characters other than the double quote and
the backslash, `%q` prints the name unchanged between two double quotes. -/
theorem quote_plain (t : Char → Bool) (s : String)
    (h : ∀ c ∈ s.data, c ≠ '"' ∧ c ≠ '\\' ∧ strconv.IsPrint t c = true) :
    strconv.Quote t s = "\"" ++ s ++ "\"" := by
  unfold strconv.Quote
  rw [quote_fold_plain t s.data _ h]
  apply String.ext
  simp [String.data_append, String.data_push]

theorem execErroredVariant_default (d : Deps) (w : String) (ev : ErroredVariant)
    (h : ev.VariantName = DefaultVariant) :
    execErroredVariant d w ev =
      w ++ "\n    " ++ d.red "/!\\ Errored default configuration" ++
        String.join (ev.Errors.map fun e => "\n      " ++ e) := by
  unfold execErroredVariant
  rw [if_pos h, execErrors_eq, h]
  rfl

theorem execErroredVariant_other (d : Deps) (w : String) (ev : ErroredVariant)
    (h : ev.VariantName ≠ DefaultVariant) :
    execErroredVariant d w ev =
      w ++ "\n    " ++
        d.red ("/!\\ Errored " ++ strconv.Quote d.printTable ev.VariantName ++
          " variant configuration") ++
        String.join (ev.Errors.map fun e => "\n      " ++ e) := by
  unfold execErroredVariant
  rw [if_neg h, execErrors_eq]

/-- C6, as stated, fails: the name of a non-default variant is printed with
`%q`, so a double quote inside the name is written with a backslash before
it, and the header does not hold the name unchanged. -/
theorem errored_header_counterexample :
    (⟨"a\"b", ["e"]⟩ : ErroredVariant).VariantName ≠ DefaultVariant ∧
    execErroredVariant plainDeps "" ⟨"a\"b", ["e"]⟩
      = "\n    /!\\ Errored \"a\\\"b\" variant configuration\n      e" ∧
    execErroredVariant plainDeps "" ⟨"a\"b", ["e"]⟩
      ≠ "\n    " ++ plainDeps.red ("/!\\ Errored \"" ++ "a\"b" ++ "\" variant configuration") ++
          String.join (["e"].map fun e => "\n      " ++ e) := by
  decide

/-- C6, amended: a visible status writes its glyph line and then, for each
errored variant in the order of the list, one block: the red header, which
reads `/!\ Errored default configuration` for the default variant and
`/!\ Errored <q> variant configuration` otherwise, `<q>` being the name as
`%q` prints it, followed by one indented line per error in the order of the
errors. `<q>` is the name unchanged between two double quotes whenever the
name consists of printable characters other than the double quote and the
backslash. -/
theorem errored_variant_lines (d : Deps) (w : String) (m : monitorableInfo) :
    (m.IsDisabled = false → execMonitorable d w m =
      w ++ "\n  " ++
        (if m.ErroredVariants.isEmpty then d.green "✓ "
          else if !m.EnabledVariants.isEmpty then d.yellow "! " else d.red "x ") ++
        m.MonitorableName ++ " " ++ d.grey m.StringifyEnabledVariants ++
        String.join (m.ErroredVariants.map fun ev => execErroredVariant d "" ev)) ∧
    (∀ ev : ErroredVariant,
      (ev.VariantName = DefaultVariant → ∀ w0, execErroredVariant d w0 ev =
        w0 ++ "\n    " ++ d.red "/!\\ Errored default configuration" ++
          String.join (ev.Errors.map fun e => "\n      " ++ e)) ∧
      (ev.VariantName ≠ DefaultVariant → ∀ w0, execErroredVariant d w0 ev =
        w0 ++ "\n    " ++
          d.red ("/!\\ Errored " ++ strconv.Quote d.printTable ev.VariantName ++
            " variant configuration") ++
          String.join (ev.Errors.map fun e => "\n      " ++ e)) ∧
      ((∀ c ∈ ev.VariantName.data,
          c ≠ '"' ∧ c ≠ '\\' ∧ strconv.IsPrint d.printTable c = true) →
        strconv.Quote d.printTable ev.VariantName = "\"" ++ ev.VariantName ++ "\"")) := by
  refine ⟨fun h => ?_, fun ev => ⟨fun h w0 => execErroredVariant_default d w0 ev h,
    fun h w0 => execErroredVariant_other d w0 ev h, fun h => quote_plain _ _ h⟩⟩
  unfold execMonitorable
  simp only [h, Bool.not_false, if_true]
  rw [foldl_writer (execErroredVariant d) (execErroredVariant_writer d)]
  congr 1
  by_cases h1 : m.ErroredVariants.isEmpty = true
  · simp only [h1, if_true, String.append_assoc]
  · by_cases h2 : m.EnabledVariants.isEmpty = true
    · simp [h1, h2, String.append_assoc]
    · simp [h1, h2, String.append_assoc]

/-- Witness of C6: the first monitorable of the test with errored variants. -/
theorem errored_variant_lines_witness :
    execMonitorable plainDeps ""
        ⟨"Monitorable 1", [⟨"default"⟩], [⟨"variant1", ["error 1", "error 2"]⟩]⟩
      = "\n  ! Monitorable 1 [default]" ++
          "\n    /!\\ Errored \"variant1\" variant configuration" ++
          "\n      error 1\n      error 2" :=
  (errored_variant_lines plainDeps ""
    ⟨"Monitorable 1", [⟨"default"⟩], [⟨"variant1", ["error 1", "error 2"]⟩]⟩).1 (by decide)

/-! ## Collection from the registry -/

theorem collectVariant_eq (n : String) (en : List EnabledVariant) (er : List ErroredVariant)
    (v : VariantMetadata) :
    collectVariant ⟨n, en, er⟩ v =
      ⟨n, en ++ (if v.Enabled then [⟨v.VariantName⟩] else []),
        er ++ (if 0 < v.Errors.length then [⟨v.VariantName, v.Errors⟩] else [])⟩ := by
  cases h1 : v.Enabled <;> by_cases h2 : 0 < v.Errors.length <;>
    simp [collectVariant, h1, h2]

theorem collect_fold (vs : List VariantMetadata) (n : String) (en : List EnabledVariant)
    (er : List ErroredVariant) :
    vs.foldl collectVariant ⟨n, en, er⟩ =
      ⟨n, en ++ (vs.filter (·.Enabled)).map (fun v => ⟨v.VariantName⟩),
        er ++ (vs.filter (fun v => decide (0 < v.Errors.length))).map
          (fun v => ⟨v.VariantName, v.Errors⟩)⟩ := by
  induction vs generalizing en er with
  | nil => simp
  | cons v vs ih =>
    rw [List.foldl_cons, collectVariant_eq, ih]
    cases h1 : v.Enabled <;> by_cases h2 : 0 < v.Errors.length <;>
      simp [List.filter_cons, h1, h2]

/-- The status collected for one monitorable: its display name, the names of
the variants flagged enabled, and the variants with at least one error, both
in the order of the registry. -/
theorem collectMonitorable_eq (mm : MonitorableMetadata) :
    collectMonitorable mm =
      ⟨mm.DisplayName, (mm.VariantsMetadata.filter (·.Enabled)).map (fun v => ⟨v.VariantName⟩),
        (mm.VariantsMetadata.filter (fun v => decide (0 < v.Errors.length))).map
          (fun v => ⟨v.VariantName, v.Errors⟩)⟩ := by
  unfold collectMonitorable
  rw [collect_fold]
  simp

theorem collectInfo_fold (r : List MonitorableMetadata) (info : monitororInfo) :
    r.foldl
        (fun info mm =>
          { info with Monitorables := info.Monitorables ++ [collectMonitorable mm] }) info
      = { info with Monitorables := info.Monitorables ++ r.map collectMonitorable } := by
  induction r generalizing info with
  | nil => simp
  | cons mm r ih =>
    rw [List.foldl_cons, ih]
    simp

/-- The statuses handed to the template: one per entry of the registry, in
the order of the registry; the other fields come from the configuration. -/
theorem collectInfo_eq (c : MonitororCli) :
    collectInfo c =
      ⟨c.Version, c.BuildTags, c.Port, c.Address, c.DisableUI,
        c.Registry.map collectMonitorable⟩ := by
  unfold collectInfo
  rw [collectInfo_fold]
  simp

/-- C7, as stated, fails: the only variant of the fourth monitorable of the
test failed its validation without an error, and it is not in the errored
list. -/
theorem collected_errored_counterexample :
    (⟨"default", false, []⟩ : VariantMetadata) ∈
      (⟨"Monitorable 4", [⟨"default", false, []⟩]⟩ : MonitorableMetadata).VariantsMetadata ∧
    (⟨"default", false, []⟩ : VariantMetadata).Enabled = false ∧
    (collectMonitorable ⟨"Monitorable 4", [⟨"default", false, []⟩]⟩).ErroredVariants = [] := by
  decide

/-- C7, amended: a name is in the enabled list exactly when a variant of that
name has its validation flag set, and an entry is in the errored list exactly
when a variant has that name and that list of errors and the list is not
empty. When the variant names of the monitorable are distinct, each variant is
in the enabled list iff its validation succeeded and in the errored list iff
its validation returned at least one error, whatever the other variants and
the other test give. -/
theorem collected_iff (c : MonitororCli) (mm : MonitorableMetadata) :
    (collectInfo c).Monitorables = c.Registry.map collectMonitorable ∧
    (∀ n : String, (⟨n⟩ : EnabledVariant) ∈ (collectMonitorable mm).EnabledVariants ↔
      ∃ v ∈ mm.VariantsMetadata, v.VariantName = n ∧ v.Enabled = true) ∧
    (∀ (n : String) (errs : List String),
      (⟨n, errs⟩ : ErroredVariant) ∈ (collectMonitorable mm).ErroredVariants ↔
        ∃ v ∈ mm.VariantsMetadata, v.VariantName = n ∧ v.Errors = errs ∧ errs ≠ []) ∧
    ((mm.VariantsMetadata.map (·.VariantName)).Nodup →
      ∀ v ∈ mm.VariantsMetadata,
        ((⟨v.VariantName⟩ : EnabledVariant) ∈ (collectMonitorable mm).EnabledVariants ↔
          v.Enabled = true) ∧
        ((∃ e ∈ (collectMonitorable mm).ErroredVariants, e.VariantName = v.VariantName) ↔
          v.Errors ≠ [])) := by
  rw [collectMonitorable_eq]
  have hEn : ∀ n : String,
      (⟨n⟩ : EnabledVariant) ∈
          (mm.VariantsMetadata.filter (·.Enabled)).map (fun v => ⟨v.VariantName⟩) ↔
        ∃ v ∈ mm.VariantsMetadata, v.VariantName = n ∧ v.Enabled = true := by
    intro n
    simp only [List.mem_map, List.mem_filter, EnabledVariant.mk.injEq]
    constructor
    · rintro ⟨v, ⟨hv, he⟩, hn⟩
      exact ⟨v, hv, hn, he⟩
    · rintro ⟨v, hv, hn, he⟩
      exact ⟨v, ⟨hv, he⟩, hn⟩
  have hEr : ∀ (n : String) (errs : List String),
      (⟨n, errs⟩ : ErroredVariant) ∈
          (mm.VariantsMetadata.filter (fun v => decide (0 < v.Errors.length))).map
            (fun v => ⟨v.VariantName, v.Errors⟩) ↔
        ∃ v ∈ mm.VariantsMetadata, v.VariantName = n ∧ v.Errors = errs ∧ errs ≠ [] := by
    intro n errs
    simp only [List.mem_map, List.mem_filter, ErroredVariant.mk.injEq, decide_eq_true_eq]
    constructor
    · rintro ⟨v, ⟨hv, he⟩, hn, hr⟩
      exact ⟨v, hv, hn, hr, by rw [← hr]; exact List.length_pos.mp he⟩
    · rintro ⟨v, hv, hn, hr, he⟩
      exact ⟨v, ⟨hv, by rw [hr]; exact List.length_pos.mpr he⟩, hn, hr⟩
  refine ⟨by rw [collectInfo_eq], hEn, hEr, fun hnd v hv => ⟨?_, ?_⟩⟩
  · rw [hEn]
    constructor
    · rintro ⟨v', hv', hn, he⟩
      have : v' = v := List.inj_on_of_nodup_map hnd hv' hv hn
      rw [← this]
      exact he
    · intro he
      exact ⟨v, hv, rfl, he⟩
  · constructor
    · rintro ⟨⟨n, errs⟩, he, hn⟩
      simp only at hn
      obtain ⟨v', hv', hn', hr, hne⟩ := (hEr n errs).mp he
      have : v' = v := List.inj_on_of_nodup_map hnd hv' hv (by rw [hn', hn])
      rw [← this, hr]
      exact hne
    · intro hne
      exact ⟨⟨v.VariantName, v.Errors⟩, (hEr _ _).mpr ⟨v, hv, rfl, rfl, hne⟩, rfl⟩

/-- Witness of C7: the first monitorable of the test with errored variants. -/
theorem collected_iff_witness :
    ((⟨"default"⟩ : EnabledVariant) ∈
        (collectMonitorable ⟨"Monitorable 1", [⟨"default", true, []⟩,
          ⟨"variant1", false, ["error 1", "error 2"]⟩]⟩).EnabledVariants ↔
      (⟨"default", true, []⟩ : VariantMetadata).Enabled = true) ∧
    ((∃ e ∈ (collectMonitorable ⟨"Monitorable 1", [⟨"default", true, []⟩,
          ⟨"variant1", false, ["error 1", "error 2"]⟩]⟩).ErroredVariants,
        e.VariantName = (⟨"default", true, []⟩ : VariantMetadata).VariantName) ↔
      (⟨"default", true, []⟩ : VariantMetadata).Errors ≠ []) :=
  (collected_iff
    ⟨"1.0.0", "", false, 3000, "1.2.3.4", [⟨"Monitorable 1", [⟨"default", true, []⟩,
      ⟨"variant1", false, ["error 1", "error 2"]⟩]⟩]⟩
    ⟨"Monitorable 1", [⟨"default", true, []⟩,
      ⟨"variant1", false, ["error 1", "error 2"]⟩]⟩).2.2.2 (by decide)
    ⟨"default", true, []⟩ (by decide)

/-! ## Documentation version, addresses, ignored-count notice -/

theorem hasSuffix_iff (s t : String) :
    strings.HasSuffix s t = true ↔ ∃ p : String, s = p ++ t := by
  unfold strings.HasSuffix
  rw [List.isSuffixOf_iff_suffix]
  constructor
  · rintro ⟨l, hl⟩
    exact ⟨String.mk l, String.ext (by simp [String.data_append, hl])⟩
  · rintro ⟨p, rfl⟩
    exact ⟨p.data, by simp [String.data_append]⟩

theorem splitLoop_nosep (sep : Char) (xs cur : List Char) (acc : List String)
    (h : sep ∉ xs) : strings.splitLoop sep xs cur acc = acc ++ [String.mk (cur ++ xs)] := by
  induction xs generalizing cur with
  | nil => simp [strings.splitLoop]
  | cons x xs ih =>
    have hx : x ≠ sep := fun hc => h (by simp [hc])
    have hxs : sep ∉ xs := fun hc => h (List.mem_cons_of_mem _ hc)
    simp [strings.splitLoop, hx, ih _ hxs]

theorem splitLoop_sep (sep : Char) (xs rest cur : List Char) (acc : List String)
    (h : sep ∉ xs) :
    strings.splitLoop sep (xs ++ sep :: rest) cur acc =
      strings.splitLoop sep rest [] (acc ++ [String.mk (cur ++ xs)]) := by
  induction xs generalizing cur with
  | nil => simp [strings.splitLoop]
  | cons x xs ih =>
    have hx : x ≠ sep := fun hc => h (by simp [hc])
    have hxs : sep ∉ xs := fun hc => h (List.mem_cons_of_mem _ hc)
    simp [strings.splitLoop, hx, ih _ hxs]

theorem splitLoop_length (sep : Char) (xs cur : List Char) (acc : List String) :
    (strings.splitLoop sep xs cur acc).length = acc.length + xs.count sep + 1 := by
  induction xs generalizing cur acc with
  | nil => simp [strings.splitLoop]
  | cons x xs ih =>
    by_cases hx : x = sep
    · subst hx
      simp [strings.splitLoop, ih]
      omega
    · have hx' : (x == sep) = false := by simpa using hx
      simp [strings.splitLoop, hx, ih, List.count_cons, hx']

/-- A string of the form `a.b.c` with no dot inside `a`, `b` and `c` splits
into these three components. -/
theorem split_three (a b c : String) (ha : '.' ∉ a.data) (hb : '.' ∉ b.data)
    (hc : '.' ∉ c.data) : strings.Split (a ++ "." ++ b ++ "." ++ c) '.' = [a, b, c] := by
  unfold strings.Split
  have hd : (a ++ "." ++ b ++ "." ++ c).data = a.data ++ '.' :: (b.data ++ '.' :: c.data) := by
    simp [String.data_append]
  rw [hd, splitLoop_sep _ _ _ _ _ ha, splitLoop_sep _ _ _ _ _ hb, splitLoop_nosep _ _ _ _ hc]
  simp

theorem docVersion_not_three (mi : monitororInfo)
    (h : (strings.Split mi.Version '.').length ≠ 3) : mi.DocumentationVersion = "" := by
  unfold monitororInfo.DocumentationVersion
  split
  · rfl
  · split
    · rename_i heq
      rw [heq] at h
      simp at h
    · rfl

/-- C8: the documentation fragment is empty for a version that does not end
with `-dev`; for a version ending with `-dev` of the form `a.b.c`, no dot
inside `a`, `b`, `c`, it is `a.b/`; for a version ending with `-dev` whose
number of dots is not two, which is when the split does not give three
components, it is empty. `1.0.0` gives the empty fragment and `1.2.0-dev`
gives `1.2/`. -/
theorem documentationVersion_spec (mi : monitororInfo) :
    ((¬ ∃ p : String, mi.Version = p ++ "-dev") → mi.DocumentationVersion = "") ∧
    (∀ a b c : String, '.' ∉ a.data → '.' ∉ b.data → '.' ∉ c.data →
      mi.Version = a ++ "." ++ b ++ "." ++ c → (∃ p : String, mi.Version = p ++ "-dev") →
      mi.DocumentationVersion = a ++ "." ++ b ++ "/") ∧
    ((strings.Split mi.Version '.').length = mi.Version.data.count '.' + 1) ∧
    ((∃ p : String, mi.Version = p ++ "-dev") → mi.Version.data.count '.' ≠ 2 →
      mi.DocumentationVersion = "") ∧
    (mi.Version = "1.0.0" → mi.DocumentationVersion = "") ∧
    (mi.Version = "1.2.0-dev" → mi.DocumentationVersion = "1.2/") := by
  have hlen : (strings.Split mi.Version '.').length = mi.Version.data.count '.' + 1 := by
    unfold strings.Split
    rw [splitLoop_length]
    simp
  refine ⟨?_, ?_, hlen, ?_, ?_, ?_⟩
  · intro h
    have hs : strings.HasSuffix mi.Version "-dev" = false := by
      cases hb : strings.HasSuffix mi.Version "-dev" with
      | false => rfl
      | true => exact absurd ((hasSuffix_iff _ _).mp hb) h
    simp [monitororInfo.DocumentationVersion, hs]
  · intro a b c ha hb hc hv hs
    have hs' : strings.HasSuffix mi.Version "-dev" = true := (hasSuffix_iff _ _).mpr hs
    unfold monitororInfo.DocumentationVersion
    rw [hs', hv, split_three a b c ha hb hc]
    rfl
  · intro _ hcount
    apply docVersion_not_three
    rw [hlen]
    omega
  · intro hv
    unfold monitororInfo.DocumentationVersion
    rw [hv]
    decide
  · intro hv
    unfold monitororInfo.DocumentationVersion
    rw [hv]
    decide

/-- Witness of C8: the version `1.2.0-dev` and a version with one dot. -/
theorem documentationVersion_spec_witness :
    (⟨"1.2.0-dev", "", 3000, "1.2.3.4", false, []⟩ : monitororInfo).DocumentationVersion
      = "1" ++ "." ++ "2" ++ "/" ∧
    (⟨"1.2-dev", "", 3000, "1.2.3.4", false, []⟩ : monitororInfo).DocumentationVersion = "" ∧
    (⟨"1.0.0", "", 3000, "1.2.3.4", false, []⟩ : monitororInfo).DocumentationVersion = "" :=
  ⟨(documentationVersion_spec ⟨"1.2.0-dev", "", 3000, "1.2.3.4", false, []⟩).2.1
      "1" "2" "0-dev" (by decide) (by decide) (by decide) (by decide) ⟨"1.2.0", by decide⟩,
   (documentationVersion_spec ⟨"1.2-dev", "", 3000, "1.2.3.4", false, []⟩).2.2.2.1
      ⟨"1.2", by decide⟩ (by decide),
   (documentationVersion_spec ⟨"1.0.0", "", 3000, "1.2.3.4", false, []⟩).2.2.2.2.1 rfl⟩

/-- C9: with a configured address the list of displayed addresses is that
address alone; without one it is `localhost` followed by the discovered IP,
whatever that string is; the list has one or two entries and is never
empty. -/
theorem displayedAddresses_spec (d : Deps) (mi : monitororInfo) :
    (mi.LookupAddress ≠ "" → mi.DisplayedAddresses d = [mi.LookupAddress]) ∧
    (mi.LookupAddress = "" → mi.DisplayedAddresses d = ["localhost", d.GetNetworkIP]) ∧
    (1 ≤ (mi.DisplayedAddresses d).length ∧ (mi.DisplayedAddresses d).length ≤ 2) ∧
    mi.DisplayedAddresses d ≠ [] := by
  unfold monitororInfo.DisplayedAddresses
  by_cases h : mi.LookupAddress = ""
  · simp [h]
  · simp [h]

/-- Witness of C9: the configuration of the tests, with and without an
address. -/
theorem displayedAddresses_spec_witness :
    (⟨"1.0.0", "", 3000, "1.2.3.4", false, []⟩ : monitororInfo).DisplayedAddresses plainDeps
      = ["1.2.3.4"] ∧
    (⟨"1.0.0", "", 3000, "", false, []⟩ : monitororInfo).DisplayedAddresses plainDeps
      = ["localhost", "10.0.0.1"] :=
  ⟨(displayedAddresses_spec plainDeps ⟨"1.0.0", "", 3000, "1.2.3.4", false, []⟩).1 (by decide),
   (displayedAddresses_spec plainDeps ⟨"1.0.0", "", 3000, "", false, []⟩).2.1 (by decide)⟩

theorem append_ne_self (w x : String) (hx : x ≠ "") : w ++ x ≠ w := by
  intro h
  have h1 := congrArg String.length h
  rw [String.length_append] at h1
  have h2 : x.length = 0 := by omega
  apply hx
  apply String.ext
  exact List.length_eq_zero.mp h2

/-- C10: the report is the header and the list, two line ends, the notice,
and the "running at" block. The notice is empty when no status of the list is
hidden; otherwise it is the yellow line `<n> more monitorables were ignored`,
`<n>` being the number of hidden statuses in decimal, the line `Check the
documentation to know how to enabled them:`, the blue link
`https://monitoror.com/<fragment>documentation/` with the fragment of
`DocumentationVersion`, and an empty line. So the notice is written exactly
when the ignored count is positive. -/
theorem ignored_notice (d : Deps) (mi : monitororInfo) :
    mi.DisabledMonitorableCount = (mi.Monitorables.filter (·.IsDisabled)).length ∧
    Execute d mi = execAddresses d
      (execIgnored d (execMonitorables d (execHeader d "" mi) mi.Monitorables) mi) mi ∧
    (mi.DisabledMonitorableCount = 0 → ∀ w, execIgnored d w mi = w ++ "\n\n") ∧
    (0 < mi.DisabledMonitorableCount → ∀ w, execIgnored d w mi =
      w ++ "\n\n" ++
        (d.yellow (toString (mi.Monitorables.filter (·.IsDisabled)).length ++
            " more monitorables were ignored") ++
          "\nCheck the documentation to know how to enabled them:\n" ++
          d.blue ("https://monitoror.com/" ++ mi.DocumentationVersion ++ "documentation/") ++
          "\n\n")) ∧
    (∀ w, execIgnored d w mi = w ++ "\n\n" ↔ mi.DisabledMonitorableCount = 0) := by
  have hcount : mi.DisabledMonitorableCount = (mi.Monitorables.filter (·.IsDisabled)).length := by
    unfold monitororInfo.DisabledMonitorableCount
    rw [disabledCount_fold]
    simp
  have hzero : mi.DisabledMonitorableCount = 0 → ∀ w, execIgnored d w mi = w ++ "\n\n" := by
    intro h w
    simp [execIgnored, h]
  have hpos : 0 < mi.DisabledMonitorableCount → ∀ w, execIgnored d w mi =
      w ++ "\n\n" ++
        (d.yellow (toString (mi.Monitorables.filter (·.IsDisabled)).length ++
            " more monitorables were ignored") ++
          "\nCheck the documentation to know how to enabled them:\n" ++
          d.blue ("https://monitoror.com/" ++ mi.DocumentationVersion ++ "documentation/") ++
          "\n\n") := by
    intro h w
    have hne : mi.DisabledMonitorableCount ≠ 0 := by omega
    unfold execIgnored
    simp only [hne, ne_eq, not_false_eq_true, if_true]
    rw [← hcount]
    simp only [String.append_assoc]
  refine ⟨hcount, rfl, hzero, hpos, fun w => ⟨fun h => ?_, fun h => hzero h w⟩⟩
  by_contra hne
  have hp : 0 < mi.DisabledMonitorableCount := by omega
  rw [hpos hp w] at h
  refine append_ne_self _ _ ?_ h
  intro hc
  have h1 := congrArg String.length hc
  simp only [String.length_append] at h1
  have h2 : ("\n\n" : String).length = 2 := by decide
  have h3 : ("" : String).length = 0 := by decide
  omega

/-- Witness of C10: the four monitorables of the test, the fourth hidden. -/
theorem ignored_notice_witness :
    execIgnored plainDeps ""
        ⟨"1.0.0", "", 3000, "1.2.3.4", false,
          [⟨"Monitorable 1", [⟨"default"⟩, ⟨"variant1"⟩, ⟨"variant2"⟩], []⟩,
           ⟨"Monitorable 2", [⟨"default"⟩], []⟩,
           ⟨"Monitorable 3", [⟨"variant1"⟩], []⟩,
           ⟨"Monitorable 4", [], []⟩]⟩
      = "\n\n1 more monitorables were ignored" ++
          "\nCheck the documentation to know how to enabled them:" ++
          "\nhttps://monitoror.com/documentation/\n\n" :=
  (ignored_notice plainDeps
      ⟨"1.0.0", "", 3000, "1.2.3.4", false,
        [⟨"Monitorable 1", [⟨"default"⟩, ⟨"variant1"⟩, ⟨"variant2"⟩], []⟩,
         ⟨"Monitorable 2", [⟨"default"⟩], []⟩,
         ⟨"Monitorable 3", [⟨"variant1"⟩], []⟩,
         ⟨"Monitorable 4", [], []⟩]⟩).2.2.2.1 (by decide) ""

/-! ## Writers extend their buffer -/

theorem execMonitorable_writer (d : Deps) (w : String) (m : monitorableInfo) :
    execMonitorable d w m = w ++ execMonitorable d "" m := by
  unfold execMonitorable
  cases h : m.IsDisabled with
  | true => simp
  | false =>
    simp only [Bool.not_false, if_true]
    rw [foldl_writer (execErroredVariant d) (execErroredVariant_writer d),
      foldl_writer (execErroredVariant d) (execErroredVariant_writer d) _ (_ ++ _)]
    by_cases h1 : m.ErroredVariants.isEmpty = true
    · simp [h1, String.append_assoc]
    · by_cases h2 : m.EnabledVariants.isEmpty = true
      · simp [h1, h2, String.append_assoc]
      · simp [h1, h2, String.append_assoc]

/-- The list part of the report: one block per status, in the order of the
list. -/
theorem execMonitorables_eq (d : Deps) (w : String) (ms : List monitorableInfo) :
    execMonitorables d w ms = w ++ String.join (ms.map (execMonitorable d "")) := by
  unfold execMonitorables
  exact foldl_writer (execMonitorable d) (execMonitorable_writer d) ms w

theorem execIgnored_writer (d : Deps) (w : String) (mi : monitororInfo) :
    execIgnored d w mi = w ++ execIgnored d "" mi := by
  unfold execIgnored
  by_cases h : mi.DisabledMonitorableCount = 0
  · simp [h]
  · simp [h, String.append_assoc]

/-- The "running at" block: its title, one line per displayed address in the
order of the list, and an empty line. -/
theorem execAddresses_eq (d : Deps) (w : String) (mi : monitororInfo) :
    execAddresses d w mi =
      w ++ "\nMonitoror is running at:" ++
        String.join ((mi.DisplayedAddresses d).map fun a =>
          "\n  " ++ d.blue ("http://" ++ a ++ ":" ++ toString mi.LookupPort)) ++ "\n\n" := by
  unfold execAddresses
  have h := foldl_write
    (fun a => "\n  " ++ d.blue ("http://" ++ a ++ ":" ++ toString mi.LookupPort))
    (mi.DisplayedAddresses d) (w ++ "\nMonitoror is running at:")
  simp only [← String.append_assoc] at h
  simp only [h]

theorem execAddresses_writer (d : Deps) (w : String) (mi : monitororInfo) :
    execAddresses d w mi = w ++ execAddresses d "" mi := by
  rw [execAddresses_eq, execAddresses_eq]
  simp [String.append_assoc]

/-- The report is the header followed by what the rest of the template writes. -/
theorem Execute_split (d : Deps) (mi : monitororInfo) :
    Execute d mi =
      execHeader d "" mi ++
        execAddresses d (execIgnored d (execMonitorables d "" mi.Monitorables) mi) mi := by
  unfold Execute
  rw [execMonitorables_eq d (execHeader d "" mi), execIgnored_writer, execAddresses_writer,
    execMonitorables_eq d "", execIgnored_writer d ("" ++ _), execAddresses_writer d (_ ++ _)]
  simp [String.append_assoc]

/-! ## The "running at" block and the collected statuses -/

/-- C11: the report ends with the block `Monitoror is running at:`, which
holds one line per entry of `DisplayedAddresses`, in the order of the list,
each line two blanks and the blue `http://<address>:<port>` with the
configured port in decimal; with a configured address the block holds the one
line of that address. -/
theorem running_at_block (d : Deps) (mi : monitororInfo) :
    Execute d mi =
      execIgnored d (execMonitorables d (execHeader d "" mi) mi.Monitorables) mi ++
        "\nMonitoror is running at:" ++
        String.join ((mi.DisplayedAddresses d).map fun a =>
          "\n  " ++ d.blue ("http://" ++ a ++ ":" ++ toString mi.LookupPort)) ++ "\n\n" ∧
    (mi.LookupAddress ≠ "" → Execute d mi =
      execIgnored d (execMonitorables d (execHeader d "" mi) mi.Monitorables) mi ++
        "\nMonitoror is running at:" ++
        "\n  " ++ d.blue ("http://" ++ mi.LookupAddress ++ ":" ++ toString mi.LookupPort) ++
        "\n\n") := by
  have h1 : Execute d mi =
      execIgnored d (execMonitorables d (execHeader d "" mi) mi.Monitorables) mi ++
        "\nMonitoror is running at:" ++
        String.join ((mi.DisplayedAddresses d).map fun a =>
          "\n  " ++ d.blue ("http://" ++ a ++ ":" ++ toString mi.LookupPort)) ++ "\n\n" := by
    unfold Execute
    rw [execAddresses_eq]
  refine ⟨h1, fun h => ?_⟩
  rw [h1]
  have ha : mi.DisplayedAddresses d = [mi.LookupAddress] := by
    simp [monitororInfo.DisplayedAddresses, h]
  rw [ha]
  simp only [List.map_cons, List.map_nil, join_cons, join_nil, String.append_empty,
    String.append_assoc]

/-- Witness of C11: the configuration of the tests, with the colours off. -/
theorem running_at_block_witness :
    Execute plainDeps ⟨"1.0.0", "", 3000, "1.2.3.4", false, []⟩ =
      execIgnored plainDeps
          (execMonitorables plainDeps
            (execHeader plainDeps "" ⟨"1.0.0", "", 3000, "1.2.3.4", false, []⟩) [])
          ⟨"1.0.0", "", 3000, "1.2.3.4", false, []⟩ ++
        "\nMonitoror is running at:" ++ "\n  " ++ "http://1.2.3.4:3000" ++ "\n\n" :=
  (running_at_block plainDeps ⟨"1.0.0", "", 3000, "1.2.3.4", false, []⟩).2 (by decide)

/-- C12: the report is the template run on the collected statuses; there is
one status per entry of the registry, in the order of the registry, under the
display name of the entry; the enabled names are the names of the variants
flagged enabled and the errored entries are the variants with errors, each
with its list of errors as it stands, both subsequences of the variants in the
order of the registry. -/
theorem collected_in_registry_order (d : Deps) (c : MonitororCli) :
    PrintMonitororStartupLog d c = Execute d (collectInfo c) ∧
    (collectInfo c).Monitorables.length = c.Registry.length ∧
    (collectInfo c).Monitorables = c.Registry.map collectMonitorable ∧
    (∀ mm : MonitorableMetadata,
      (collectMonitorable mm).MonitorableName = mm.DisplayName ∧
      (collectMonitorable mm).EnabledVariants =
        (mm.VariantsMetadata.filter (·.Enabled)).map (fun v => ⟨v.VariantName⟩) ∧
      (collectMonitorable mm).ErroredVariants =
        (mm.VariantsMetadata.filter (fun v => decide (0 < v.Errors.length))).map
          (fun v => ⟨v.VariantName, v.Errors⟩) ∧
      List.Sublist ((collectMonitorable mm).EnabledVariants.map (·.VariantName))
        (mm.VariantsMetadata.map (·.VariantName)) ∧
      List.Sublist (collectMonitorable mm).ErroredVariants
        (mm.VariantsMetadata.map fun v => ⟨v.VariantName, v.Errors⟩)) := by
  refine ⟨rfl, by rw [collectInfo_eq]; simp, by rw [collectInfo_eq], fun mm => ?_⟩
  rw [collectMonitorable_eq]
  refine ⟨rfl, rfl, rfl, ?_, ?_⟩
  · simp only [List.map_map]
    exact List.Sublist.map _ (List.filter_sublist _)
  · exact List.Sublist.map _ (List.filter_sublist _)

/-! ## Development-mode notice and the report of the first test -/

set_option maxRecDepth 100000 in
/-- C13: the report for `DisableUI = false` is the banner part followed by
the header `ENABLED MONITORABLES` and the rest; the report for `DisableUI =
true` is the same banner part, then the five lines of the DEVELOPMENT MODE box
and two empty lines, then the same header and the same rest. Nothing else
depends on `DisableUI`. -/
theorem development_notice (d : Deps) (v t a : String) (p : Int)
    (ms : List monitorableInfo) :
    Execute d ⟨v, t, p, a, false, ms⟩ =
      ("\n    __  ___            _ __\n   /  |/  /___  ____  (_) /_____  _________  _____\n  / /|_/ / __ \\/ __ \\/ / __/ __ \\/ ___/ __ \\/ ___/\n / /  / / /_/ / / / / / /_/ /_/ / /  / /_/ / / " ++
        (if t ≠ "" then d.inverseColor (" " ++ t ++ " ") else "") ++
        "\n/_/  /_/\\____/_/ /_/_/\\__/\\____/_/   \\____/_/  " ++ d.green v ++
        "\n\n" ++ d.blue "https://monitoror.com" ++ "\n\n\n") ++
      (d.green "ENABLED MONITORABLES" ++ "\n" ++
        execAddresses d (execIgnored d (execMonitorables d "" ms) ⟨v, t, p, a, false, ms⟩)
          ⟨v, t, p, a, false, ms⟩) ∧
    Execute d ⟨v, t, p, a, true, ms⟩ =
      ("\n    __  ___            _ __\n   /  |/  /___  ____  (_) /_____  _________  _____\n  / /|_/ / __ \\/ __ \\/ / __/ __ \\/ ___/ __ \\/ ___/\n / /  / / /_/ / / / / / /_/ /_/ / /  / /_/ / / " ++
        (if t ≠ "" then d.inverseColor (" " ++ t ++ " ") else "") ++
        "\n/_/  /_/\\____/_/ /_/_/\\__/\\____/_/   \\____/_/  " ++ d.green v ++
        "\n\n" ++ d.blue "https://monitoror.com" ++ "\n\n\n") ++
      ("┌─ " ++ d.yellow "DEVELOPMENT MODE" ++ " ──────────────────────────────┐\n" ++
        "│ UI must be started via " ++ d.green "yarn serve" ++ " from ./ui     │\n" ++
        "│ For more details, check our development guide:  │\n" ++
        "│ " ++ d.blue "https://monitoror.com/guides/#development" ++ "       │\n" ++
        "└─────────────────────────────────────────────────┘\n" ++
        "\n\n") ++
      (d.green "ENABLED MONITORABLES" ++ "\n" ++
        execAddresses d (execIgnored d (execMonitorables d "" ms) ⟨v, t, p, a, false, ms⟩)
          ⟨v, t, p, a, false, ms⟩) := by
  have hrest : execAddresses d (execIgnored d (execMonitorables d "" ms) ⟨v, t, p, a, true, ms⟩)
        ⟨v, t, p, a, true, ms⟩ =
      execAddresses d (execIgnored d (execMonitorables d "" ms) ⟨v, t, p, a, false, ms⟩)
        ⟨v, t, p, a, false, ms⟩ := rfl
  constructor
  · rw [Execute_split]
    unfold execHeader
    by_cases ht : t = ""
    · simp [ht, String.append_assoc]
    · simp [ht, String.append_assoc]
  · rw [Execute_split, hrest]
    unfold execHeader
    have hl1 : " ──────────────────────────────┐\n│ UI must be started via " =
        " ──────────────────────────────┐\n" ++ "│ UI must be started via " := by decide
    have hl2 : " from ./ui     │\n│ For more details, check our development guide:  │\n│ " =
        " from ./ui     │\n" ++ "│ For more details, check our development guide:  │\n" ++
          "│ " := by decide
    have hl3 : "       │\n└─────────────────────────────────────────────────┘\n\n\n" =
        "       │\n" ++ "└─────────────────────────────────────────────────┘\n" ++ "\n\n" := by
      decide
    rw [hl1, hl2, hl3]
    by_cases ht : t = ""
    · simp only [ht, ne_eq, not_true_eq_false, if_false, if_true, String.empty_append,
        String.append_empty, String.append_assoc]
    · simp only [ht, ne_eq, not_false_eq_true, if_true, String.empty_append,
        String.append_assoc]

set_option maxRecDepth 100000 in
/-- C14: with an empty registry, version `1.0.0`, no build tags, UI enabled,
port 3000 and address `1.2.3.4`, and the colours `green` and `blue` (the only
ones this report uses) the identity, the report is the expected text of
`TestPrintMonitororStartupLog_WithUI`, character for character. -/
theorem report_without_monitorables (d : Deps) (hg : ∀ x, d.green x = x)
    (hb : ∀ x, d.blue x = x) :
    PrintMonitororStartupLog d ⟨"1.0.0", "", false, 3000, "1.2.3.4", []⟩ =
      "\n    __  ___            _ __\n   /  |/  /___  ____  (_) /_____  _________  _____\n  / /|_/ / __ \\/ __ \\/ / __/ __ \\/ ___/ __ \\/ ___/\n / /  / / /_/ / / / / / /_/ /_/ / /  / /_/ / / \n/_/  /_/\\____/_/ /_/_/\\__/\\____/_/   \\____/_/  1.0.0\n\nhttps://monitoror.com\n\n\nENABLED MONITORABLES\n\n\n\nMonitoror is running at:\n  http://1.2.3.4:3000\n\n" := by
  have h : PrintMonitororStartupLog d ⟨"1.0.0", "", false, 3000, "1.2.3.4", []⟩ =
      "\n    __  ___            _ __\n   /  |/  /___  ____  (_) /_____  _________  _____\n  / /|_/ / __ \\/ __ \\/ / __/ __ \\/ ___/ __ \\/ ___/\n / /  / / /_/ / / / / / /_/ /_/ / /  / /_/ / / " ++
        "\n/_/  /_/\\____/_/ /_/_/\\__/\\____/_/   \\____/_/  " ++ d.green "1.0.0" ++
        "\n\n" ++ d.blue "https://monitoror.com" ++ "\n\n\n" ++
        d.green "ENABLED MONITORABLES" ++ "\n" ++ "\n\n" ++ "\nMonitoror is running at:" ++
        "\n  " ++ d.blue "http://1.2.3.4:3000" ++ "\n\n" := rfl
  rw [h, hg, hg, hb, hb]
  decide

/-- Witness of C14: the colours switched off. -/
theorem report_without_monitorables_witness :
    PrintMonitororStartupLog plainDeps ⟨"1.0.0", "", false, 3000, "1.2.3.4", []⟩ =
      "\n    __  ___            _ __\n   /  |/  /___  ____  (_) /_____  _________  _____\n  / /|_/ / __ \\/ __ \\/ / __/ __ \\/ ___/ __ \\/ ___/\n / /  / / /_/ / / / / / /_/ /_/ / /  / /_/ / / \n/_/  /_/\\____/_/ /_/_/\\__/\\____/_/   \\____/_/  1.0.0\n\nhttps://monitoror.com\n\n\nENABLED MONITORABLES\n\n\n\nMonitoror is running at:\n  http://1.2.3.4:3000\n\n" :=
  report_without_monitorables plainDeps (fun _ => rfl) (fun _ => rfl)

/-! ## Summary without enabled variants, shown and ignored statuses -/

/-- The block of a visible status: the glyph line, then the blocks of the
errored variants. -/
theorem execMonitorable_visible (d : Deps) (w : String) (m : monitorableInfo)
    (h : m.IsDisabled = false) :
    execMonitorable d w m =
      w ++ "\n  " ++
        (if m.ErroredVariants.isEmpty then d.green "✓ "
          else if !m.EnabledVariants.isEmpty then d.yellow "! " else d.red "x ") ++
        m.MonitorableName ++ " " ++ d.grey m.StringifyEnabledVariants ++
        String.join (m.ErroredVariants.map fun ev => execErroredVariant d "" ev) := by
  unfold execMonitorable
  simp only [h, Bool.not_false, if_true]
  rw [foldl_writer (execErroredVariant d) (execErroredVariant_writer d)]
  congr 1
  by_cases h1 : m.ErroredVariants.isEmpty = true
  · simp only [h1, if_true, String.append_assoc]
  · by_cases h2 : m.EnabledVariants.isEmpty = true
    · simp [h1, h2, String.append_assoc]
    · simp [h1, h2, String.append_assoc]

theorem execMonitorable_visible_ne (d : Deps) (m : monitorableInfo)
    (h : m.IsDisabled = false) : execMonitorable d "" m ≠ "" := by
  rw [execMonitorable_visible d "" m h]
  intro hc
  have h1 := congrArg String.length hc
  simp only [String.length_append] at h1
  have h2 : ("\n  " : String).length = 3 := by decide
  have h3 : ("" : String).length = 0 := by decide
  omega

theorem execMonitorables_visible (d : Deps) (w : String) (ms : List monitorableInfo) :
    execMonitorables d w ms =
      w ++ String.join ((ms.filter fun m => !m.IsDisabled).map (execMonitorable d "")) := by
  rw [execMonitorables_eq]
  congr 1
  induction ms with
  | nil => rfl
  | cons m ms ih =>
    cases h : m.IsDisabled with
    | true =>
      simp only [List.map_cons, List.filter_cons, h, Bool.not_true, join_cons]
      rw [execMonitorable_hidden d "" m h, String.empty_append]
      exact ih
    | false =>
      simp only [List.map_cons, List.filter_cons, h, Bool.not_false, if_true, join_cons]
      rw [ih]

theorem stringify_no_enabled (m : monitorableInfo) (h : m.EnabledVariants.length = 0) :
    m.StringifyEnabledVariants = "" := by
  have he : m.EnabledVariants = [] := List.length_eq_zero.mp h
  unfold monitorableInfo.StringifyEnabledVariants
  rw [he]
  rfl

/-- C15: a status without enabled variants has the empty summary, whatever
its errored variants; a failed status is written as the red `x `, its name, a
blank and the empty summary, before the lines of its errored variants. -/
theorem no_enabled_no_summary (d : Deps) (w : String) (m : monitorableInfo)
    (h : m.EnabledVariants.length = 0) :
    m.StringifyEnabledVariants = "" ∧
    (0 < m.ErroredVariants.length → execMonitorable d w m =
      m.ErroredVariants.foldl (execErroredVariant d)
        (w ++ "\n  " ++ d.red "x " ++ m.MonitorableName ++ " " ++ d.grey "")) := by
  refine ⟨stringify_no_enabled m h, fun h2 => ?_⟩
  have hs := stringify_no_enabled m h
  obtain ⟨name, en, er⟩ := m
  have hen : en = [] := List.length_eq_zero.mp h
  subst hen
  cases er with
  | nil => simp at h2
  | cons b er =>
    simp only [execMonitorable, monitorableInfo.IsDisabled, hs]
    simp

/-- Witness of C15: the second monitorable of the test with errored
variants. -/
theorem no_enabled_no_summary_witness :
    (⟨"Monitorable 2", [], [⟨"default", ["error 1", "error 2"]⟩]⟩ :
        monitorableInfo).StringifyEnabledVariants = "" ∧
    execMonitorable plainDeps ""
        ⟨"Monitorable 2", [], [⟨"default", ["error 1", "error 2"]⟩]⟩
      = "\n  x Monitorable 2 \n    /!\\ Errored default configuration" ++
          "\n      error 1\n      error 2" :=
  ⟨(no_enabled_no_summary plainDeps ""
      ⟨"Monitorable 2", [], [⟨"default", ["error 1", "error 2"]⟩]⟩ (by decide)).1,
   (no_enabled_no_summary plainDeps ""
      ⟨"Monitorable 2", [], [⟨"default", ["error 1", "error 2"]⟩]⟩ (by decide)).2 (by decide)⟩

/-- C16: the list part of the report is one non-empty block per status that
is not hidden, in the order of the list; the number of these blocks plus
`DisabledMonitorableCount` is the length of the list, so the count lies
between 0 and that length; and every status occurs among the shown ones and
the counted ones together as often as in the list, and never in both. -/
theorem shown_plus_ignored (d : Deps) (w : String) (mi : monitororInfo) :
    execMonitorables d w mi.Monitorables =
      w ++ String.join
        ((mi.Monitorables.filter fun m => !m.IsDisabled).map (execMonitorable d "")) ∧
    (∀ m ∈ mi.Monitorables.filter (fun m => !m.IsDisabled), execMonitorable d "" m ≠ "") ∧
    (mi.Monitorables.filter fun m => !m.IsDisabled).length + mi.DisabledMonitorableCount
      = mi.Monitorables.length ∧
    0 ≤ mi.DisabledMonitorableCount ∧
    mi.DisabledMonitorableCount ≤ mi.Monitorables.length ∧
    (∀ m : monitorableInfo,
      (mi.Monitorables.filter fun m => !m.IsDisabled).count m +
          (mi.Monitorables.filter (·.IsDisabled)).count m = mi.Monitorables.count m ∧
      ((mi.Monitorables.filter fun m => !m.IsDisabled).count m = 0 ∨
        (mi.Monitorables.filter (·.IsDisabled)).count m = 0)) := by
  have hcount : mi.DisabledMonitorableCount = (mi.Monitorables.filter (·.IsDisabled)).length := by
    unfold monitororInfo.DisabledMonitorableCount
    rw [disabledCount_fold]
    simp
  have hlen := List.length_eq_length_filter_add (l := mi.Monitorables) (·.IsDisabled)
  refine ⟨execMonitorables_visible d w _, ?_, ?_, Nat.zero_le _, ?_, fun m => ?_⟩
  · intro m hm
    have hv : m.IsDisabled = false := by
      have := (List.mem_filter.mp hm).2
      simpa using this
    exact execMonitorable_visible_ne d m hv
  · rw [hcount]
    omega
  · rw [hcount]
    exact List.length_filter_le _ _
  · cases h : m.IsDisabled with
    | true =>
      have h0 : (mi.Monitorables.filter fun m => !m.IsDisabled).count m = 0 := by
        apply List.count_eq_zero_of_not_mem
        intro hm
        have := (List.mem_filter.mp hm).2
        simp [h] at this
      have h1 : (mi.Monitorables.filter (·.IsDisabled)).count m = mi.Monitorables.count m :=
        List.count_filter h
      exact ⟨by omega, Or.inl h0⟩
    | false =>
      have h0 : (mi.Monitorables.filter (·.IsDisabled)).count m = 0 := by
        apply List.count_eq_zero_of_not_mem
        intro hm
        have := (List.mem_filter.mp hm).2
        simp [h] at this
      have h1 : (mi.Monitorables.filter fun m => !m.IsDisabled).count m
          = mi.Monitorables.count m := List.count_filter (by simp [h])
      exact ⟨by omega, Or.inr h0⟩

/-- Witness of C16: the four monitorables of the test; the first one is
shown. -/
theorem shown_plus_ignored_witness :
    execMonitorable plainDeps ""
      ⟨"Monitorable 1", [⟨"default"⟩, ⟨"variant1"⟩, ⟨"variant2"⟩], []⟩ ≠ "" :=
  (shown_plus_ignored plainDeps ""
      ⟨"1.0.0", "", 3000, "1.2.3.4", false,
        [⟨"Monitorable 1", [⟨"default"⟩, ⟨"variant1"⟩, ⟨"variant2"⟩], []⟩,
         ⟨"Monitorable 2", [⟨"default"⟩], []⟩,
         ⟨"Monitorable 3", [⟨"variant1"⟩], []⟩,
         ⟨"Monitorable 4", [], []⟩]⟩).2.1
    ⟨"Monitorable 1", [⟨"default"⟩, ⟨"variant1"⟩, ⟨"variant2"⟩], []⟩ (by decide)

/-! ## Errored entries carry errors; the summary and the errored list -/

theorem collected_errors_ne_nil (mm : MonitorableMetadata) (e : ErroredVariant)
    (he : e ∈ (collectMonitorable mm).ErroredVariants) : e.Errors ≠ [] := by
  rw [collectMonitorable_eq] at he
  simp only [List.mem_map, List.mem_filter, decide_eq_true_eq] at he
  obtain ⟨v, ⟨_, hpos⟩, rfl⟩ := he
  exact List.length_pos.mp hpos

theorem collectVariant_silent (m : monitorableInfo) (v : VariantMetadata)
    (h1 : v.Enabled = false) (h2 : v.Errors = []) : collectVariant m v = m := by
  simp [collectVariant, h1, h2]

theorem collectMonitorable_silent (mm : MonitorableMetadata)
    (h : ∀ v ∈ mm.VariantsMetadata, v.Enabled = false ∧ v.Errors = []) :
    (collectMonitorable mm).IsDisabled = true := by
  rw [collectMonitorable_eq, isDisabled_iff]
  constructor
  · simp only [List.length_eq_zero, List.map_eq_nil_iff, List.filter_eq_nil_iff]
    intro v hv
    simp [(h v hv).1]
  · simp only [List.length_eq_zero, List.map_eq_nil_iff, List.filter_eq_nil_iff]
    intro v hv
    simp [(h v hv).2]

theorem execErroredVariant_cons (d : Deps) (w : String) (n e0 : String) (rest : List String) :
    execErroredVariant d w ⟨n, e0 :: rest⟩ =
      execErroredVariant d w ⟨n, []⟩ ++ "\n      " ++ e0 ++
        String.join (rest.map fun x => "\n      " ++ x) := by
  unfold execErroredVariant
  simp only [execErrors_eq, List.map_cons, List.map_nil, join_cons, join_nil,
    String.append_empty, String.append_assoc]

/-- C17: every errored entry of a collected status has at least one error,
so its header is followed by the line of its first error and the lines of the
further ones; a variant that is not enabled and has no error leaves the status
as it was; and a registered monitorable whose variants are all of that kind
gives a hidden status, which writes nothing and is counted by
`DisabledMonitorableCount`. -/
theorem errored_entries_nonempty (d : Deps) (c : MonitororCli) :
    (∀ m ∈ (collectInfo c).Monitorables, ∀ e ∈ m.ErroredVariants, e.Errors ≠ []) ∧
    (∀ m ∈ (collectInfo c).Monitorables, ∀ e ∈ m.ErroredVariants, ∀ w : String,
      ∃ e0 rest, e.Errors = e0 :: rest ∧
        execErroredVariant d w e =
          execErroredVariant d w ⟨e.VariantName, []⟩ ++ "\n      " ++ e0 ++
            String.join (rest.map fun x => "\n      " ++ x)) ∧
    (∀ (m : monitorableInfo) (v : VariantMetadata),
      v.Enabled = false → v.Errors = [] → collectVariant m v = m) ∧
    (collectInfo c).DisabledMonitorableCount =
      ((collectInfo c).Monitorables.filter (·.IsDisabled)).length ∧
    (∀ mm ∈ c.Registry, (∀ v ∈ mm.VariantsMetadata, v.Enabled = false ∧ v.Errors = []) →
      (collectMonitorable mm).ErroredVariants = [] ∧
      (collectMonitorable mm).IsDisabled = true ∧
      collectMonitorable mm ∈ (collectInfo c).Monitorables.filter (·.IsDisabled) ∧
      0 < (collectInfo c).DisabledMonitorableCount ∧
      ∀ w, execMonitorable d w (collectMonitorable mm) = w) := by
  have hne : ∀ m ∈ (collectInfo c).Monitorables, ∀ e ∈ m.ErroredVariants, e.Errors ≠ [] := by
    intro m hm e he
    rw [collectInfo_eq] at hm
    simp only [List.mem_map] at hm
    obtain ⟨mm, _, rfl⟩ := hm
    exact collected_errors_ne_nil mm e he
  have hcount : (collectInfo c).DisabledMonitorableCount =
      ((collectInfo c).Monitorables.filter (·.IsDisabled)).length := by
    unfold monitororInfo.DisabledMonitorableCount
    rw [disabledCount_fold]
    simp
  refine ⟨hne, ?_, collectVariant_silent, hcount, ?_⟩
  · intro m hm e he w
    obtain ⟨n, errs⟩ := e
    cases errs with
    | nil => exact absurd rfl (hne m hm _ he)
    | cons e0 rest => exact ⟨e0, rest, rfl, execErroredVariant_cons d w n e0 rest⟩
  · intro mm hmm hall
    have hdis := collectMonitorable_silent mm hall
    have hmem : collectMonitorable mm ∈ (collectInfo c).Monitorables.filter (·.IsDisabled) := by
      rw [List.mem_filter, collectInfo_eq]
      exact ⟨List.mem_map.mpr ⟨mm, hmm, rfl⟩, hdis⟩
    refine ⟨?_, hdis, hmem, ?_, fun w => execMonitorable_hidden d w _ hdis⟩
    · exact List.length_eq_zero.mp ((isDisabled_iff _).mp hdis).2
    · rw [hcount]
      exact List.length_pos_of_mem hmem

/-- Witness of C17: the registry of the test with errored variants for the
entries with errors, and the fourth monitorable of the other test for the
hidden status. -/
theorem errored_entries_nonempty_witness :
    (⟨"variant1", ["error 1", "error 2"]⟩ : ErroredVariant).Errors ≠ [] ∧
    (collectMonitorable ⟨"Monitorable 4", [⟨"default", false, []⟩]⟩).IsDisabled = true :=
  ⟨(errored_entries_nonempty plainDeps
      ⟨"1.0.0", "", false, 3000, "1.2.3.4", [⟨"Monitorable 1", [⟨"default", true, []⟩,
        ⟨"variant1", false, ["error 1", "error 2"]⟩]⟩]⟩).1
      ⟨"Monitorable 1", [⟨"default"⟩], [⟨"variant1", ["error 1", "error 2"]⟩]⟩ (by decide)
      ⟨"variant1", ["error 1", "error 2"]⟩ (by decide),
   ((errored_entries_nonempty plainDeps
      ⟨"1.0.0", "", false, 3000, "1.2.3.4", [⟨"Monitorable 4", [⟨"default", false, []⟩]⟩]⟩).2.2.2.2
      ⟨"Monitorable 4", [⟨"default", false, []⟩]⟩ (by decide) (by decide)).2.1⟩

/-- C18: two statuses with the same enabled list, whose errored lists are
both empty or both non-empty, have the same summary, whatever the names and
the errors of the errored variants. -/
theorem summary_ignores_errored_content (m1 m2 : monitorableInfo)
    (he : m1.EnabledVariants = m2.EnabledVariants)
    (hr : m1.ErroredVariants = [] ↔ m2.ErroredVariants = []) :
    m1.StringifyEnabledVariants = m2.StringifyEnabledVariants := by
  have hlen : (m1.ErroredVariants.length > 0) ↔ (m2.ErroredVariants.length > 0) := by
    simp only [gt_iff_lt, List.length_pos]
    exact not_congr hr
  unfold monitorableInfo.StringifyEnabledVariants
  rw [he]
  by_cases h2 : m2.ErroredVariants.length > 0
  · rw [if_pos (hlen.mpr h2), if_pos h2]
  · rw [if_neg (fun hc => h2 (hlen.mp hc)), if_neg h2]

/-- Witness of C18: the default variant enabled, with two different non-empty
errored lists. -/
theorem summary_ignores_errored_content_witness :
    (⟨"A", [⟨"default"⟩], [⟨"variant1", ["error 1", "error 2"]⟩]⟩ :
        monitorableInfo).StringifyEnabledVariants =
      (⟨"B", [⟨"default"⟩], [⟨"default", ["x"]⟩, ⟨"v", ["y"]⟩]⟩ :
        monitorableInfo).StringifyEnabledVariants :=
  summary_ignores_errored_content
    ⟨"A", [⟨"default"⟩], [⟨"variant1", ["error 1", "error 2"]⟩]⟩
    ⟨"B", [⟨"default"⟩], [⟨"default", ["x"]⟩, ⟨"v", ["y"]⟩]⟩ rfl (by decide)

/-! ## The summary of a status with distinct enabled names

In the data model the enabled variant names of a status form an ordered set:
a variant is identified by its name, and no name is listed twice. -/

/-- The status collected from a registry entry with distinct variant names
has distinct enabled names. -/
theorem collected_enabled_nodup (mm : MonitorableMetadata)
    (h : (mm.VariantsMetadata.map (·.VariantName)).Nodup) :
    ((collectMonitorable mm).EnabledVariants.map (·.VariantName)).Nodup := by
  rw [collectMonitorable_eq]
  simp only [List.map_map]
  exact List.Nodup.sublist (List.Sublist.map _ (List.filter_sublist _)) h

/-- C4: for a status whose enabled names are distinct, with at least one
enabled variant and no errored variant, the summary is empty if and only if
the enabled list is exactly `[default]`, the default variant being the sole
enabled one. -/
theorem summary_empty_iff (m : monitorableInfo)
    (hn : (m.EnabledVariants.map (·.VariantName)).Nodup)
    (h1 : 0 < m.EnabledVariants.length) (h2 : m.ErroredVariants.length = 0) :
    m.StringifyEnabledVariants = "" ↔ m.EnabledVariants = [⟨DefaultVariant⟩] := by
  rw [summary_empty_all_default m h2]
  constructor
  · intro hall
    exact distinct_all_default _ hn (List.length_pos.mp h1) hall
  · rintro hs v hv
    rw [hs] at hv
    simp only [List.mem_singleton] at hv
    rw [hv]

/-- Witness of C4: the statuses collected for the second and the third
monitorable of the test; the summary of the second is empty, the summary of
the third is not. -/
theorem summary_empty_iff_witness :
    (collectMonitorable ⟨"Monitorable 2", [⟨"default", true, []⟩]⟩).StringifyEnabledVariants
      = "" ∧
    (collectMonitorable ⟨"Monitorable 3", [⟨"variant1", true, []⟩]⟩).StringifyEnabledVariants
      ≠ "" :=
  ⟨(summary_empty_iff (collectMonitorable ⟨"Monitorable 2", [⟨"default", true, []⟩]⟩)
      (collected_enabled_nodup _ (by decide)) (by decide) (by decide)).mpr (by decide),
   fun hc => absurd
    ((summary_empty_iff (collectMonitorable ⟨"Monitorable 3", [⟨"variant1", true, []⟩]⟩)
      (collected_enabled_nodup _ (by decide)) (by decide) (by decide)).mp hc) (by decide)⟩

/-- C5: for a status whose enabled names are distinct, in which the default
variant is enabled, no other variant is enabled and at least one errored
variant exists, the summary is exactly `[default]`; the enabled list of such a
status is `[default]`. -/
theorem default_only_summary (m : monitorableInfo)
    (hn : (m.EnabledVariants.map (·.VariantName)).Nodup)
    (hd : (⟨DefaultVariant⟩ : EnabledVariant) ∈ m.EnabledVariants)
    (ho : ∀ v ∈ m.EnabledVariants, v.VariantName = DefaultVariant)
    (he : 0 < m.ErroredVariants.length) :
    m.EnabledVariants = [⟨DefaultVariant⟩] ∧ m.StringifyEnabledVariants = "[default]" := by
  have hs : m.EnabledVariants = [⟨DefaultVariant⟩] :=
    distinct_all_default _ hn (List.ne_nil_of_mem hd) ho
  exact ⟨hs, summary_sole_default_errored m hs he⟩

/-- Witness of C5: the status collected for the first monitorable of the test
with errored variants. -/
theorem default_only_summary_witness :
    (collectMonitorable ⟨"Monitorable 1", [⟨"default", true, []⟩,
      ⟨"variant1", false, ["error 1", "error 2"]⟩]⟩).StringifyEnabledVariants = "[default]" :=
  (default_only_summary
    (collectMonitorable ⟨"Monitorable 1", [⟨"default", true, []⟩,
      ⟨"variant1", false, ["error 1", "error 2"]⟩]⟩)
    (collected_enabled_nodup _ (by decide)) (by decide) (by decide) (by decide)).2

end Monitoror
